import Mathlib

/-!
Verification development for the duck-duck-scrape MCP search endpoints.

The development shallowly embeds the pure control flow of the three
handler variants found in the repository: the per-IP rate limiters
(enforceRateLimit and the instance-global checkRateLimit), the session
stores with TTL expiry, the Set-Cookie extraction, the HTML result
parser (parseResults), and the top-level request handler. Network
fetches and random delays are parameterized as explicit oracle inputs;
JS Maps are modelled as association lists keyed by strings; timestamps
are integers (milliseconds).
-/

set_option maxHeartbeats 1000000
set_option maxRecDepth 10000

/-! ## Association-list maps (model of JS Map) -/

/-- A JS Map with string keys, modelled as an association list. -/
abbrev SMap (α : Type) := List (String × α)

def mget {α : Type} : SMap α → String → Option α
  | [], _ => none
  | (k, v) :: rest, key => if k = key then some v else mget rest key

def mset {α : Type} (m : SMap α) (key : String) (v : α) : SMap α :=
  (key, v) :: m

def merase {α : Type} : SMap α → String → SMap α
  | [], _ => []
  | (k, v) :: rest, key =>
    if k = key then merase rest key else (k, v) :: merase rest key

theorem mget_mset_self {α : Type} (m : SMap α) (k : String) (v : α) :
    mget (mset m k v) k = some v := by
  simp [mget, mset]

theorem mget_mset_ne {α : Type} (m : SMap α) (k k2 : String) (v : α) (h : k ≠ k2) :
    mget (mset m k v) k2 = mget m k2 := by
  simp [mget, mset, h]

theorem mget_merase_self {α : Type} (m : SMap α) (k : String) :
    mget (merase m k) k = none := by
  induction m with
  | nil => rfl
  | cons p rest ih =>
    obtain ⟨k2, v⟩ := p
    by_cases h : k2 = k
    · simp [merase, h, ih]
    · simp [merase, mget, h, ih]

theorem mget_merase_ne {α : Type} (m : SMap α) (k k2 : String) (h : k ≠ k2) :
    mget (merase m k) k2 = mget m k2 := by
  induction m with
  | nil => rfl
  | cons p rest ih =>
    obtain ⟨k3, v⟩ := p
    by_cases h2 : k3 = k
    · subst h2
      simp [merase, mget, h, ih]
    · by_cases h3 : k3 = k2
      · simp [merase, mget, h2, h3, ih, Ne.symm h]
      · simp [merase, mget, h2, h3, ih]

/-! ## Per-IP rate limiter (enforceRateLimit) -/

/-- A rate record: request count and window reset time, in ms. -/
structure RateRec where
  count : Nat
  reset : Int
  deriving DecidableEq

abbrev RateStore := SMap RateRec

def MAX_PER_MIN : Nat := 3

/-- Embedding of enforceRateLimit. The JS function mutates the global
RATE_LIMITS map and throws on rejection; here it returns the map after
the call together with the thrown message, when one is thrown. -/
def enforceRateLimit (now : Int) (ip : String) (st : RateStore) :
    RateStore × Option String :=
  let st1 :=
    match mget st ip with
    | some r => if r.reset < now then merase st ip else st
    | none => st
  let current : RateRec := (mget st1 ip).getD ⟨0, now + 60000⟩
  if MAX_PER_MIN ≤ current.count then
    (st1, some "Rate limit: 3 requests/minute/IP")
  else
    (mset st1 ip ⟨current.count + 1, current.reset⟩, none)

/-- Invariant: every stored count is at most the ceiling. -/
def ceilOk (st : RateStore) : Prop :=
  ∀ k r, mget st k = some r → r.count ≤ MAX_PER_MIN

/-- C1: the acquire operation first discards an expired record; a call
is rejected exactly when the surviving record is at the ceiling, and a
rejection leaves the store unchanged; a successful call stores count
(effective previous count) + 1, so no stored count ever exceeds the
ceiling. -/
theorem enforceRateLimit_spec (now : Int) (ip : String) (st : RateStore) :
    ((enforceRateLimit now ip st).2.isSome ↔
      ∃ r, mget st ip = some r ∧ now ≤ r.reset ∧ MAX_PER_MIN ≤ r.count) ∧
    ((enforceRateLimit now ip st).2.isSome → (enforceRateLimit now ip st).1 = st) ∧
    ((enforceRateLimit now ip st).2 = none →
      mget (enforceRateLimit now ip st).1 ip = some
        ⟨(match mget st ip with
          | some r => if r.reset < now then 0 else r.count
          | none => 0) + 1,
         (match mget st ip with
          | some r => if r.reset < now then now + 60000 else r.reset
          | none => now + 60000)⟩) ∧
    (ceilOk st → ceilOk (enforceRateLimit now ip st).1) := by
  rcases hm : mget st ip with _ | r
  · have e1 : enforceRateLimit now ip st = (mset st ip ⟨1, now + 60000⟩, none) := by
      simp [enforceRateLimit, hm, MAX_PER_MIN]
    refine ⟨?_, ?_, ?_, ?_⟩
    · rw [e1]; simp [hm]
    · rw [e1]; simp
    · intro _
      rw [e1]
      simp [mget_mset_self]
    · intro hc k r2 hk
      rw [e1] at hk
      by_cases hkip : ip = k
      · subst hkip
        rw [mget_mset_self] at hk
        cases hk
        simp [MAX_PER_MIN]
      · rw [mget_mset_ne _ _ _ _ hkip] at hk
        exact hc k r2 hk
  · by_cases hexp : r.reset < now
    · have e1 : enforceRateLimit now ip st =
          (mset (merase st ip) ip ⟨1, now + 60000⟩, none) := by
        simp [enforceRateLimit, hm, hexp, mget_merase_self, MAX_PER_MIN]
      refine ⟨?_, ?_, ?_, ?_⟩
      · rw [e1]
        simp [hm]
        intro hle
        omega
      · rw [e1]; simp
      · intro _
        rw [e1]
        simp [hexp, mget_mset_self]
      · intro hc k r2 hk
        rw [e1] at hk
        by_cases hkip : ip = k
        · subst hkip
          rw [mget_mset_self] at hk
          cases hk
          simp [MAX_PER_MIN]
        · rw [mget_mset_ne _ _ _ _ hkip, mget_merase_ne _ _ _ hkip] at hk
          exact hc k r2 hk
    · by_cases hcnt : MAX_PER_MIN ≤ r.count
      · have e1 : enforceRateLimit now ip st =
            (st, some "Rate limit: 3 requests/minute/IP") := by
          simp [enforceRateLimit, hm, hexp, hcnt]
        refine ⟨?_, ?_, ?_, ?_⟩
        · rw [e1]
          simp
          exact ⟨by omega, hcnt⟩
        · intro _; rw [e1]
        · intro habs
          rw [e1] at habs
          simp at habs
        · intro hc
          rw [e1]
          exact hc
      · have e1 : enforceRateLimit now ip st =
            (mset st ip ⟨r.count + 1, r.reset⟩, none) := by
          simp [enforceRateLimit, hm, hexp, hcnt]
        refine ⟨?_, ?_, ?_, ?_⟩
        · rw [e1]
          simp
          intro _
          omega
        · rw [e1]; simp
        · intro _
          rw [e1]
          simp [hexp, mget_mset_self]
        · intro hc k r2 hk
          rw [e1] at hk
          by_cases hkip : ip = k
          · subst hkip
            rw [mget_mset_self] at hk
            cases hk
            simp only [MAX_PER_MIN] at hcnt ⊢
            omega
          · rw [mget_mset_ne _ _ _ _ hkip] at hk
            exact hc k r2 hk

/-- Witness for enforceRateLimit_spec: a store at the ceiling rejects
the call and is left unchanged, and the ceiling invariant is preserved. -/
theorem enforceRateLimit_spec_witness :
    (enforceRateLimit 0 "a" [("a", RateRec.mk 3 100)]).1 = [("a", RateRec.mk 3 100)] ∧
    ceilOk (enforceRateLimit 0 "a" [("a", RateRec.mk 3 100)]).1 := by
  have h := enforceRateLimit_spec 0 "a" [("a", RateRec.mk 3 100)]
  refine ⟨h.2.1 (by decide), h.2.2.2 ?_⟩
  intro k r hk
  simp only [mget] at hk
  by_cases hka : "a" = k
  · rw [if_pos hka] at hk
    cases hk
    decide
  · rw [if_neg hka] at hk
    cases hk

/-- The rejection decision of enforceRateLimit depends only on the
record stored under the acquiring key. -/
theorem enforceRateLimit_snd_congr (now : Int) (ip : String) (s t : RateStore)
    (h : mget s ip = mget t ip) :
    (enforceRateLimit now ip s).2 = (enforceRateLimit now ip t).2 := by
  unfold enforceRateLimit
  rcases hm : mget s ip with _ | r
  · rw [hm] at h
    simp [hm, ← h, MAX_PER_MIN]
  · rw [hm] at h
    by_cases hexp : r.reset < now
    · simp [hm, ← h, hexp, mget_merase_self, MAX_PER_MIN]
    · by_cases hc : MAX_PER_MIN ≤ r.count
      · simp [hm, ← h, hexp, hc]
      · simp [hm, ← h, hexp, hc]

/-- An acquire call leaves every other key of the store untouched. -/
theorem enforceRateLimit_mget_ne (now : Int) (ip ip2 : String) (st : RateStore)
    (h : ip ≠ ip2) :
    mget (enforceRateLimit now ip st).1 ip2 = mget st ip2 := by
  unfold enforceRateLimit
  rcases hm : mget st ip with _ | r
  · simp [hm, MAX_PER_MIN, mget_mset_ne _ _ _ _ h]
  · by_cases hexp : r.reset < now
    · simp [hm, hexp, mget_merase_self, MAX_PER_MIN,
        mget_mset_ne _ _ _ _ h, mget_merase_ne _ _ _ h]
    · by_cases hc : MAX_PER_MIN ≤ r.count
      · simp [hm, hexp, hc]
      · simp [hm, hexp, hc, mget_mset_ne _ _ _ _ h]

/-- C9 (amended, for the per-IP limiter): an acquire for one identity
never changes the record of a distinct identity and never changes
whether an acquire for that identity is rejected. -/
theorem enforceRateLimit_isolation (now now2 : Int) (ip ip2 : String)
    (st : RateStore) (h : ip ≠ ip2) :
    mget (enforceRateLimit now ip st).1 ip2 = mget st ip2 ∧
    (enforceRateLimit now2 ip2 (enforceRateLimit now ip st).1).2 =
      (enforceRateLimit now2 ip2 st).2 := by
  have h1 := enforceRateLimit_mget_ne now ip ip2 st h
  exact ⟨h1, enforceRateLimit_snd_congr now2 ip2 _ _ h1⟩

/-- Witness for enforceRateLimit_isolation at concrete identities. -/
theorem enforceRateLimit_isolation_witness :
    mget (enforceRateLimit 0 "a" [("b", RateRec.mk 2 50)]).1 "b" =
      mget [("b", RateRec.mk 2 50)] "b" ∧
    (enforceRateLimit 0 "b" (enforceRateLimit 0 "a" [("b", RateRec.mk 2 50)]).1).2 =
      (enforceRateLimit 0 "b" [("b", RateRec.mk 2 50)]).2 := by
  exact enforceRateLimit_isolation 0 0 "a" "b" [("b", RateRec.mk 2 50)] (by decide)

/-! ## Instance-global rate limiter (checkRateLimit, simple variant) -/

/-- State of the simple variant limiter: a single counter shared by
all callers, with the time of the last window reset. -/
structure GlobalRL where
  requestCount : Nat
  lastReset : Int
  deriving DecidableEq

def RATE_LIMIT_PER_MINUTE : Nat := 10

/-- Embedding of the argumentless checkRateLimit of the simple handler
variant: it takes no client identity at all. -/
def checkRateLimit (now : Int) (st : GlobalRL) : GlobalRL × Option String :=
  let st1 := if 60000 < now - st.lastReset then ⟨0, now⟩ else st
  if RATE_LIMIT_PER_MINUTE ≤ st1.requestCount then
    (st1, some "Rate limit exceeded: max 10 requests per minute")
  else
    ({ st1 with requestCount := st1.requestCount + 1 }, none)

/-- n successive acquire calls against the global limiter, all at the
same instant (as made by any mix of client identities). -/
def globalAcquires : Nat → GlobalRL → GlobalRL
  | 0, st => st
  | n + 1, st => (checkRateLimit 0 (globalAcquires n st)).1

/-- C9 counterexample: the simple variant limiter is shared across all
identities. Ten calls, all made on behalf of one identity, drive the
single shared counter to the ceiling, after which a call on behalf of
any other identity is rejected; the limiter cannot distinguish
identities because it takes none. -/
theorem checkRateLimit_crossIdentity_cex :
    (checkRateLimit 0 (globalAcquires 10 ⟨0, 0⟩)).2.isSome = true ∧
    (checkRateLimit 0 ⟨0, 0⟩).2 = none := by
  decide

/-! ## Effective result count (count argument handling) -/

/-- Embedding of the count computation of the handler, restricted to
integer arguments: Math.min(Math.max(Number(args.count) || 10, 1), 20).
A missing argument gives NaN, which is falsy, as is 0. -/
def effectiveCount (c : Option Int) : Int :=
  let n : Int :=
    match c with
    | none => 10
    | some v => if v = 0 then 10 else v
  min (max n 1) 20

/-- Modelled from the spec: the count argument, an integer clamped to
the interval [1, 20], with default 10 when the argument is absent. -/
def clampSpecCount (c : Option Int) : Int :=
  match c with
  | none => 10
  | some v => min (max v 1) 20

/-- C8 counterexample: a present count argument of 0 is treated as
absent by the falsy-default, yielding 10, while clamping 0 to [1, 20]
would yield 1. -/
theorem effectiveCount_zero_cex :
    effectiveCount (some 0) = 10 ∧ clampSpecCount (some 0) = 1 ∧
    effectiveCount (some 0) ≠ clampSpecCount (some 0) := by
  refine ⟨rfl, ?_, ?_⟩ <;> decide

/-- C8 (amended): the effective count is the count argument clamped to
[1, 20] when the argument is present and nonzero; an absent or zero
argument defaults to 10; the effective count always lies in [1, 20]. -/
theorem effectiveCount_spec (c : Option Int) :
    1 ≤ effectiveCount c ∧ effectiveCount c ≤ 20 ∧
    effectiveCount none = 10 ∧ effectiveCount (some 0) = 10 ∧
    (∀ v : Int, v ≠ 0 → effectiveCount (some v) = min (max v 1) 20) := by
  refine ⟨?_, ?_, rfl, rfl, ?_⟩
  · rcases c with _ | v
    · decide
    · simp only [effectiveCount]
      rw [min_def, max_def]
      split <;> split <;> omega
  · rcases c with _ | v
    · decide
    · simp only [effectiveCount]
      rw [min_def, max_def]
      split <;> split <;> omega
  · intro v hv
    simp [effectiveCount, hv]

/-- Witness for effectiveCount_spec at a nonzero argument. -/
theorem effectiveCount_spec_witness :
    effectiveCount (some 25) = min (max (25 : Int) 1) 20 := by
  exact (effectiveCount_spec (some 25)).2.2.2.2 25 (by decide)

/-! ## Top-level handler (humanLikeSearch variant) control flow -/

/-- Outcome of the awaited search pipeline as seen by the handler:
either a list of parsed results or a thrown error message. -/
inductive SearchOutcome where
  | ok (msg : String)
  | err (msg : String)
  deriving DecidableEq

/-- HTTP response summary: status code and the isError flag of the
JSON body (none when the response has no JSON body, as for 405). -/
structure HandlerResp where
  status : Nat
  isError : Option Bool
  deriving DecidableEq

/-- Embedding of the handler of the humanLikeSearch variant: method
gate, rate-limit gate (whose throw is caught by the same catch-all as
search errors), request validation, then the search outcome. Returns
the response summary and the rate store after the call. The markdown
rendering is irrelevant to the claims and elided; the search outcome
carries an opaque payload. -/
def handler (method : String) (now : Int) (ip : String) (rl : RateStore)
    (name : String) (query : Option String) (search : SearchOutcome) :
    HandlerResp × RateStore :=
  if method ≠ "POST" then (⟨405, none⟩, rl)
  else
    let res := enforceRateLimit now ip rl
    match res.2 with
    | some _ => (⟨200, some true⟩, res.1)
    | none =>
      if name ≠ "duckduckgo_web_search" ∨ query = none ∨ query = some "" then
        (⟨400, some true⟩, res.1)
      else
        match search with
        | .ok _ => (⟨200, some false⟩, res.1)
        | .err _ => (⟨200, some true⟩, res.1)

/-- C4 counterexample: with the rate record at the ceiling, a
well-formed request is rejected by the rate limiter, but the handler
answers HTTP 200 with the error flag set, not a 4xx status: the
rate-limit throw is caught by the same catch-all that renders terminal
search failures. -/
theorem handler_rateLimited_status_cex :
    (handler "POST" 0 "a" [("a", RateRec.mk 3 100)]
        "duckduckgo_web_search" (some "q") (.ok "r")).1 = ⟨200, some true⟩ ∧
    ¬(400 ≤ (handler "POST" 0 "a" [("a", RateRec.mk 3 100)]
        "duckduckgo_web_search" (some "q") (.ok "r")).1.status ∧
      (handler "POST" 0 "a" [("a", RateRec.mk 3 100)]
        "duckduckgo_web_search" (some "q") (.ok "r")).1.status < 500) := by
  decide

/-- C4 (amended): for POST requests, a rate-limit rejection and a
terminal search failure are both answered as HTTP 200 with the error
flag set, while a malformed request (wrong tool name or missing or
empty query) that passes the rate gate is answered with status 400. -/
theorem handler_status_spec (now : Int) (ip : String) (rl : RateStore)
    (name : String) (query : Option String) (search : SearchOutcome) :
    ((enforceRateLimit now ip rl).2.isSome →
      (handler "POST" now ip rl name query search).1 = ⟨200, some true⟩) ∧
    ((enforceRateLimit now ip rl).2 = none →
      (name ≠ "duckduckgo_web_search" ∨ query = none ∨ query = some "") →
      (handler "POST" now ip rl name query search).1 = ⟨400, some true⟩) ∧
    ((enforceRateLimit now ip rl).2 = none →
      ¬(name ≠ "duckduckgo_web_search" ∨ query = none ∨ query = some "") →
      ∀ msg, search = .err msg →
      (handler "POST" now ip rl name query search).1 = ⟨200, some true⟩) := by
  refine ⟨?_, ?_, ?_⟩
  · intro h
    rcases hr : (enforceRateLimit now ip rl).2 with _ | m
    · rw [hr] at h; simp at h
    · simp [handler, hr]
  · intro h hbad
    simp [handler, h, hbad]
  · intro h hgood msg hs
    subst hs
    simp [handler, h, hgood]

/-- Witness for handler_status_spec: a fresh store admits the request
and a failing search is rendered as HTTP 200 with the error flag. -/
theorem handler_status_spec_witness :
    (handler "POST" 0 "a" [] "duckduckgo_web_search" (some "q")
        (.err "Blocked by anti-bot system")).1 = ⟨200, some true⟩ := by
  exact (handler_status_spec 0 "a" [] "duckduckgo_web_search" (some "q")
      (.err "Blocked by anti-bot system")).2.2 (by decide) (by decide)
      "Blocked by anti-bot system" rfl

/-! ## Character-level string utilities

All string manipulation is done on explicit character lists with
structural recursion so that every definition evaluates inside the
kernel. -/

/-- JS String.prototype.split with a single-character separator. -/
def splitOnCh (sep : Char) : List Char → List (List Char)
  | [] => [[]]
  | c :: rest =>
    if c = sep then [] :: splitOnCh sep rest
    else
      match splitOnCh sep rest with
      | t :: ts => (c :: t) :: ts
      | [] => [[c]]

/-- Whitespace as trimmed by JS String.prototype.trim (common part). -/
def isJsWs (c : Char) : Bool :=
  c = ' ' || c = '\t' || c = '\n' || c = '\r' ||
  c.val == 11 || c.val == 12 || c.val == 160 || c.val == 65279

/-- JS String.prototype.trim on character lists. -/
def trimChars (s : List Char) : List Char :=
  ((s.dropWhile isJsWs).reverse.dropWhile isJsWs).reverse

/-- JS String.prototype.startsWith. -/
def strStartsWith (s pre : String) : Bool :=
  pre.data.isPrefixOf s.data

/-- Substring containment on character lists (JS String.includes). -/
def listHasSub (pat : List Char) : List Char → Bool
  | [] => pat.isEmpty
  | c :: rest => pat.isPrefixOf (c :: rest) || listHasSub pat rest

/-- JS String.includes. -/
def strHasSub (s pat : String) : Bool :=
  listHasSub pat.data s.data

/-- Join with a separator string (JS Array.prototype.join). -/
def joinSep (sep : String) (l : List String) : String :=
  String.mk (List.intercalate sep.data (l.map String.data))

/-! ## Cookie extractor (extractCookies, humanLikeSearch variant) -/

/-- The comma-split, attribute-stripped, trimmed, filtered entry list
of extractCookies. -/
def cookieEntries (s : String) : List String :=
  (((splitOnCh ',' s.data).map
      (fun c => String.mk (trimChars ((splitOnCh ';' c).headD [])))).filter
    (fun c => !(c == "") && !(strStartsWith c "path") &&
      !(strStartsWith c "expires") && !(strStartsWith c "HttpOnly")))

/-- Embedding of extractCookies: split the Set-Cookie value on commas,
keep the part of each entry before the first semicolon, trim it, drop
empty entries and entries starting with path, expires or HttpOnly,
and join the rest with a semicolon and space. Falsy input (absent
header or empty string) yields the empty string. -/
def extractCookies (setCookie : Option String) : String :=
  match setCookie with
  | none => ""
  | some s => if s = "" then "" else joinSep "; " (cookieEntries s)

/-- C6 counterexample: the attribute filter is case-sensitive. The
entry Path=/ (capital P) is an attribute-only path fragment up to
case, yet it survives extraction and is returned as the cookie string,
so the output does contain a case-variant path= fragment. -/
theorem extractCookies_case_cex :
    extractCookies (some "Path=/; a=b") = "Path=/" ∧
    "path".data.isPrefixOf ("Path=/".data.map Char.toLower) = true := by
  refine ⟨by decide, by decide⟩

/-- C6 (amended): extractCookies returns the empty string on absent or
empty input, and every entry of its output is nonempty and does not
start with the exact (case-sensitive) strings path, expires or
HttpOnly. -/
theorem extractCookies_spec :
    extractCookies none = "" ∧ extractCookies (some "") = "" ∧
    ∀ s e, e ∈ cookieEntries s →
      e ≠ "" ∧ strStartsWith e "path" = false ∧
      strStartsWith e "expires" = false ∧ strStartsWith e "HttpOnly" = false := by
  refine ⟨rfl, rfl, ?_⟩
  intro s e he
  rw [cookieEntries] at he
  have hp := (List.mem_filter.mp he).2
  simp only [Bool.and_eq_true, Bool.not_eq_true', beq_eq_false_iff_ne,
    Bool.not_eq_true] at hp
  exact ⟨hp.1.1.1, hp.1.1.2, hp.1.2, hp.2⟩

/-- Witness for extractCookies_spec at a concrete Set-Cookie value. -/
theorem extractCookies_spec_witness :
    ("abc=1" : String) ≠ "" ∧ strStartsWith "abc=1" "path" = false ∧
    strStartsWith "abc=1" "expires" = false ∧
    strStartsWith "abc=1" "HttpOnly" = false := by
  exact extractCookies_spec.2.2 "abc=1; path=/, expires=Mon" "abc=1" (by decide)

/-! ## Session manager (humanLikeSearch variant) -/

/-- A stored session of the humanLikeSearch variant. -/
structure Session1 where
  cookies : String
  userAgent : String
  timestamp : Int
  deriving DecidableEq

abbrev Store1 := SMap Session1

/-- Session TTL of the humanLikeSearch variant: 12 minutes in ms. -/
def TTL1 : Int := 12 * 60 * 1000

/-- Embedding of establishSession: visit the landing page and extract
cookies from its Set-Cookie header. The fetch outcome is an oracle
input: an error (rejected fetch, which propagates) or the Set-Cookie
header, possibly absent. The chosen user agent is also an input. -/
def establishSession (landing : Except String (Option String))
    (userAgent : String) : Except String (String × String) :=
  match landing with
  | .error e => .error e
  | .ok h => .ok (extractCookies h, userAgent)

/-- Embedding of the session phase of humanLikeSearch (expiry check,
reuse, or establishment): returns the cookie and user-agent pair used
for the search, or the propagated establishment error, together with
the session store after the phase. -/
def sessionPhase (now : Int) (ip : String) (store : Store1)
    (est : Except String (String × String)) :
    Except String (String × String) × Store1 :=
  let p :=
    match mget store ip with
    | some s =>
      if TTL1 < now - s.timestamp then (none, merase store ip) else (some s, store)
    | none => (none, store)
  match p.1 with
  | some s => (.ok (s.cookies, s.userAgent), p.2)
  | none =>
    match est with
    | .error e => (.error e, p.2)
    | .ok cu => (.ok cu, mset p.2 ip ⟨cu.1, cu.2, now⟩)

/-- C2: when the stored session has exceeded the TTL, it is deleted
and a fresh session is established from the landing-page fetch (its
cookie string coming from extractCookies on the fresh response, never
from the old session); a stored session within the TTL is reused as-is
and the store is unchanged. -/
theorem sessionPhase_spec (now : Int) (ip : String) (store : Store1)
    (landing : Except String (Option String)) (ua : String) :
    (∀ s, mget store ip = some s → TTL1 < now - s.timestamp →
      sessionPhase now ip store (establishSession landing ua) =
        (match landing with
         | .error e => (.error e, merase store ip)
         | .ok h =>
           (.ok (extractCookies h, ua),
            mset (merase store ip) ip ⟨extractCookies h, ua, now⟩))) ∧
    (∀ s, mget store ip = some s → now - s.timestamp ≤ TTL1 →
      sessionPhase now ip store (establishSession landing ua) =
        (.ok (s.cookies, s.userAgent), store)) := by
  constructor
  · intro s hs httl
    rcases landing with e | h
    · simp [sessionPhase, establishSession, hs, httl]
    · simp [sessionPhase, establishSession, hs, httl]
  · intro s hs httl
    have h2 : ¬ TTL1 < now - s.timestamp := by omega
    simp [sessionPhase, hs, h2]

/-- Witness for sessionPhase_spec: an expired session is replaced by a
freshly extracted one. -/
theorem sessionPhase_spec_witness :
    sessionPhase 720001 "a" [("a", Session1.mk "old=1" "UA0" 0)]
        (establishSession (.ok (some "x=2")) "UA1") =
      (.ok (extractCookies (some "x=2"), "UA1"),
       mset (merase [("a", Session1.mk "old=1" "UA0" 0)] "a") "a"
         ⟨extractCookies (some "x=2"), "UA1", 720001⟩) := by
  exact (sessionPhase_spec 720001 "a" [("a", Session1.mk "old=1" "UA0" 0)]
      (.ok (some "x=2")) "UA1").1 (Session1.mk "old=1" "UA0" 0) (by decide) (by decide)

/-! ## Result extractor (parseResults) -/

/-- A parsed search result. -/
structure SearchResult where
  title : String
  url : String
  description : String
  deriving DecidableEq

/-- The block boundary marker of parseResults. -/
def MARKER : List Char := "<div class=\"result__body\">".data

/-- Literal head of the URL anchor pattern. -/
def LITU : List Char := "<a class=\"result__a\" href=\"".data

/-- Literal head of the title anchor pattern. -/
def LITT : List Char := "<a class=\"result__a\"".data

/-- Literal head of the snippet pattern. -/
def LITD : List Char := "<div class=\"result__snippet\">".data

def CLOSEA : List Char := "</a>".data

def CLOSED : List Char := "</div>".data

/-- Line terminators not matched by an unflagged JS regex dot. -/
def isJsLineTerm (c : Char) : Bool :=
  c = '\n' || c = '\r' || c.val == 8232 || c.val == 8233

/-- Lazy capture of a JS (.*?) group followed by a closing literal:
the shortest dot-matching run after which the closing literal starts;
none when a line terminator or the end of input intervenes. -/
def lazyCap (close : List Char) : List Char → Option (List Char)
  | [] => if close.isEmpty then some [] else none
  | c :: rest =>
    if close.isPrefixOf (c :: rest) then some []
    else if isJsLineTerm c then none
    else (lazyCap close rest).map (fun t => c :: t)

/-- The suffix after the first greater-than sign, the residue of the
JS regex piece consisting of a negated-bracket star and the sign. -/
def afterGt : List Char → Option (List Char)
  | [] => none
  | c :: rest => if c = '>' then some rest else afterGt rest

/-- First match of the URL anchor pattern: at each position, the head
literal, a nonempty run of non-quote characters (the captured URL), a
closing quote, then a greater-than sign somewhere after it. -/
def extractUrl : List Char → Option (List Char)
  | [] => none
  | c :: rest =>
    if LITU.isPrefixOf (c :: rest) then
      let after := (c :: rest).drop LITU.length
      let cap := after.takeWhile (fun ch => ch ≠ '"')
      match after.drop cap.length with
      | '"' :: tail =>
        if !cap.isEmpty && tail.any (fun ch => ch = '>') then some cap
        else extractUrl rest
      | _ => extractUrl rest
    else extractUrl rest

/-- First match of the title anchor pattern, returning the lazily
captured anchor text. -/
def extractTitleCap : List Char → Option (List Char)
  | [] => none
  | c :: rest =>
    if LITT.isPrefixOf (c :: rest) then
      match afterGt ((c :: rest).drop LITT.length) with
      | none => extractTitleCap rest
      | some tail =>
        match lazyCap CLOSEA tail with
        | some cap => some cap
        | none => extractTitleCap rest
    else extractTitleCap rest

/-- First match of the snippet pattern, returning the lazily captured
snippet text. -/
def extractDescCap : List Char → Option (List Char)
  | [] => none
  | c :: rest =>
    if LITD.isPrefixOf (c :: rest) then
      match lazyCap CLOSED ((c :: rest).drop LITD.length) with
      | some cap => some cap
      | none => extractDescCap rest
    else extractDescCap rest

/-- Strip bold tags, case-insensitively in the letter as the JS regex
with the global and ignore-case flags does. -/
def stripBTags : List Char → List Char
  | '<' :: 'b' :: '>' :: rest => stripBTags rest
  | '<' :: 'B' :: '>' :: rest => stripBTags rest
  | '<' :: '/' :: 'b' :: '>' :: rest => stripBTags rest
  | '<' :: '/' :: 'B' :: '>' :: rest => stripBTags rest
  | c :: rest => c :: stripBTags rest
  | [] => []

/-- Decode the quot entity. -/
def replQuot : List Char → List Char
  | '&' :: 'q' :: 'u' :: 'o' :: 't' :: ';' :: rest => '"' :: replQuot rest
  | c :: rest => c :: replQuot rest
  | [] => []

/-- Decode the amp entity. -/
def replAmp : List Char → List Char
  | '&' :: 'a' :: 'm' :: 'p' :: ';' :: rest => '&' :: replAmp rest
  | c :: rest => c :: replAmp rest
  | [] => []

/-- Decode the lt entity. -/
def replLt : List Char → List Char
  | '&' :: 'l' :: 't' :: ';' :: rest => '<' :: replLt rest
  | c :: rest => c :: replLt rest
  | [] => []

/-- Decode the gt entity. -/
def replGt : List Char → List Char
  | '&' :: 'g' :: 't' :: ';' :: rest => '>' :: replGt rest
  | c :: rest => c :: replGt rest
  | [] => []

/-- The clean helper of parseResults: strip bold tags, decode the four
entities in source order, and trim. -/
def cleanChars (s : List Char) : List Char :=
  trimChars (replGt (replLt (replAmp (replQuot (stripBTags s)))))

/-- Title of a block: the captured anchor text, defaulting to the
placeholder when absent or empty (falsy), then cleaned. -/
def titleOf (block : String) : String :=
  let t0 : List Char :=
    match extractTitleCap block.data with
    | some cap => if cap.isEmpty then "No title".data else cap
    | none => "No title".data
  String.mk (cleanChars t0)

/-- Description of a block: the captured snippet text or empty, then
cleaned. -/
def descOf (block : String) : String :=
  let d0 : List Char :=
    match extractDescCap block.data with
    | some cap => cap
    | none => []
  String.mk (cleanChars d0)

/-- Per-block step of the parseResults loop: extract the URL, skip the
block when it is absent, not absolute, or self-referential, otherwise
build the result. -/
def blockToResult (block : String) : Option SearchResult :=
  match extractUrl block.data with
  | none => none
  | some u =>
    if !("http".data.isPrefixOf u) then none
    else if listHasSub "duckduckgo.com".data u then none
    else some ⟨titleOf block, String.mk u, descOf block⟩

/-- Fueled JS String.prototype.split with a string separator; the fuel
is the input length, which each step strictly consumes. -/
def splitFuel (sep : List Char) : Nat → List Char → List Char → List (List Char)
  | 0, s, acc => [acc.reverse ++ s]
  | fuel + 1, s, acc =>
    match s with
    | [] => [acc.reverse]
    | c :: rest =>
      if sep.isPrefixOf (c :: rest) then
        acc.reverse :: splitFuel sep fuel (List.drop sep.length (c :: rest)) []
      else splitFuel sep fuel rest (c :: acc)

/-- The candidate blocks of a document: split on the marker and drop
the prefix before the first marker. -/
def splitBlocks (html : String) : List String :=
  ((splitFuel MARKER html.data.length html.data []).map String.mk).drop 1

/-- The parseResults loop: stop when the budget (requested maximum
minus results so far) is exhausted, skip blocks rejected by
blockToResult, and collect the rest in document order. -/
def goParse : List String → Nat → List SearchResult
  | [], _ => []
  | _ :: _, 0 => []
  | b :: bs, Nat.succ k =>
    match blockToResult b with
    | none => goParse bs (Nat.succ k)
    | some r => r :: goParse bs k

/-- Embedding of parseResults. -/
def parseResults (html : String) (max : Nat) : List SearchResult :=
  goParse (splitBlocks html) max

/-- The early-exit loop collects exactly the first max accepted blocks. -/
theorem goParse_eq (bs : List String) :
    ∀ k, goParse bs k = (bs.filterMap blockToResult).take k := by
  induction bs with
  | nil => intro k; simp [goParse]
  | cons b bs ih =>
    intro k
    cases k with
    | zero => simp [goParse]
    | succ k =>
      cases hb : blockToResult b with
      | none => simp [goParse, hb, List.filterMap_cons, ih]
      | some r => simp [goParse, hb, List.filterMap_cons, ih]

/-- C3: parseResults returns the accepted blocks in document order,
truncated to the requested maximum; hence at most min(max, number of
candidate blocks) results; and every returned URL starts with http
and does not contain the engine domain duckduckgo.com. -/
theorem parseResults_props (html : String) (max : Nat) :
    parseResults html max =
      ((splitBlocks html).filterMap blockToResult).take max ∧
    (parseResults html max).length ≤ min max (splitBlocks html).length ∧
    ∀ r, r ∈ parseResults html max →
      strStartsWith r.url "http" = true ∧
      strHasSub r.url "duckduckgo.com" = false := by
  have he : parseResults html max =
      ((splitBlocks html).filterMap blockToResult).take max :=
    goParse_eq (splitBlocks html) max
  refine ⟨he, ?_, ?_⟩
  · rw [he, List.length_take]
    exact min_le_min (le_refl max) (List.length_filterMap_le _ _)
  · intro r hr
    rw [he] at hr
    have hr2 := List.mem_of_mem_take hr
    obtain ⟨b, _, hbr⟩ := List.mem_filterMap.mp hr2
    unfold blockToResult at hbr
    rcases hu : extractUrl b.data with _ | u
    · rw [hu] at hbr
      simp at hbr
    · rw [hu] at hbr
      rcases h1 : "http".data.isPrefixOf u with _ | _
      · simp [h1] at hbr
      · rcases h2 : listHasSub "duckduckgo.com".data u with _ | _
        · simp [h1, h2] at hbr
          subst hbr
          constructor
          · simpa [strStartsWith] using h1
          · simpa [strHasSub] using h2
        · simp [h1, h2] at hbr

/-- Witness for parseResults_props on a one-block document. -/
theorem parseResults_props_witness :
    strStartsWith "http://e.com/a" "http" = true ∧
    strHasSub "http://e.com/a" "duckduckgo.com" = false := by
  exact (parseResults_props
    "X<div class=\"result__body\"><a class=\"result__a\" href=\"http://e.com/a\">T</a><div class=\"result__snippet\">D</div>"
    1).2.2 ⟨"T", "http://e.com/a", "D"⟩ (by decide)

/-! ## Search pipeline (humanLikeSearch variant) -/

/-- Embedding of humanLikeSearch: session phase (whose establishment
error propagates), then the search fetch with the session cookie and
user agent (an oracle input: a rejected fetch error, or ok flag,
status and body), block-marker detection, then parseResults. Returns
the thrown error or the parsed results, with the store after the call. -/
def humanLikeSearch (now : Int) (ip : String) (store : Store1)
    (est : Except String (String × String))
    (fetch : String → String → Except String (Bool × Nat × String))
    (count : Nat) : Except String (List SearchResult) × Store1 :=
  match sessionPhase now ip store est with
  | (.error e, st) => (.error e, st)
  | (.ok cu, st) =>
    match fetch cu.1 cu.2 with
    | .error e => (.error e, st)
    | .ok (ok, status, html) =>
      if !ok then (.error ("HTTP " ++ toString status), st)
      else if strHasSub html "blocked your request" || strHasSub html "captcha" then
        (.error "Blocked by anti-bot system", st)
      else (.ok (parseResults html count), st)

/-- C5 counterexample: in the humanLikeSearch variant, establishSession
performs the landing-page fetch with no error handling, so a rejected
landing fetch propagates out of the pipeline (to the top-level catch)
and the search fetch is never attempted, even though the search fetch
oracle here would have succeeded with a parsable body. -/
theorem humanLikeSearch_landing_failure_cex :
    humanLikeSearch 0 "1.1.1.1" ([] : Store1)
      (establishSession (.error "landing fetch failed") "UA")
      (fun _ _ => .ok (true, 200,
        "X<div class=\"result__body\"><a class=\"result__a\" href=\"http://e.com/a\">T</a><div class=\"result__snippet\">D</div>"))
      3
    = (.error "landing fetch failed", ([] : Store1)) := by
  rfl

/-! ## Search pipeline (performSearchWithSession variant) -/

/-- A stored session of the performSearchWithSession variant. -/
structure Session2 where
  cookies : String
  timestamp : Int
  deriving DecidableEq

abbrev Store2 := SMap Session2

/-- Session TTL of the performSearchWithSession variant: 10 minutes. -/
def TTL2 : Int := 10 * 60 * 1000

/-- Embedding of getInitialCookies: fetch the landing page inside a
try block; on any fetch error return the empty string; on success take
the Set-Cookie header (empty string when absent or falsy), split on
commas, keep the part of each entry before the first semicolon (no
trimming and no attribute filtering in this variant), and join. -/
def getInitialCookies (landing : Except String (Option String)) : String :=
  match landing with
  | .error _ => ""
  | .ok none => ""
  | .ok (some h) =>
    if h = "" then ""
    else joinSep "; " ((splitOnCh ',' h.data).map
      (fun c => String.mk ((splitOnCh ';' c).headD [])))

/-- Embedding of the session and cookie phase of
performSearchWithSession: expire the stored session after the TTL,
reuse its cookie string when one is present (non-falsy), otherwise
fetch fresh cookies and store them only when nonempty. Returns the
cookie string used for the search and the store after the phase. -/
def cookiePhase (now : Int) (ip : String) (store : Store2)
    (landing : Except String (Option String)) : String × Store2 :=
  let store1 :=
    match mget store ip with
    | some s => if TTL2 < now - s.timestamp then merase store ip else store
    | none => store
  let sessCookies :=
    match mget store1 ip with
    | some s => s.cookies
    | none => ""
  if sessCookies = "" then
    let c := getInitialCookies landing
    if c = "" then ("", store1) else (c, mset store1 ip ⟨c, now⟩)
  else (sessCookies, store1)

/-- Embedding of performSearchWithSession: run the cookie phase, try
the search with the cookie string (the search collaborator is an
oracle from the cookie string used to an outcome; the empty string
means no cookie header is sent); on failure with a nonempty cookie
string retry once without cookies, returning the retry result on
success and rethrowing the original error on a second failure. -/
def performSearchWithSession {ρ : Type} (now : Int) (ip : String)
    (store : Store2) (landing : Except String (Option String))
    (search : String → Except String ρ) : Except String ρ × Store2 :=
  let cs := cookiePhase now ip store landing
  match search cs.1 with
  | .ok r => (.ok r, cs.2)
  | .error e =>
    if cs.1 = "" then (.error e, cs.2)
    else
      match search "" with
      | .ok r => (.ok r, cs.2)
      | .error _ => (.error e, cs.2)

/-- C5 (amended, for the performSearchWithSession variant): for a
client with no stored session, a failing landing fetch is swallowed by
getInitialCookies, the session store is left unchanged (no session is
stored for an empty cookie string), and the search proceeds with the
empty cookie string, its outcome returned unchanged. -/
theorem performSearch_landing_failure_tolerant {ρ : Type} (now : Int)
    (ip : String) (store : Store2) (e : String)
    (search : String → Except String ρ) (hno : mget store ip = none) :
    performSearchWithSession now ip store (.error e) search =
      (search "", store) := by
  have hcp : cookiePhase now ip store (.error e) = ("", store) := by
    simp [cookiePhase, hno, getInitialCookies]
  rcases hs : search "" with r | r
  · simp [performSearchWithSession, hcp, hs]
  · simp [performSearchWithSession, hcp, hs]

/-- Witness for performSearch_landing_failure_tolerant: with no stored
session and a failing landing fetch, the cookie-less search outcome is
returned as-is. -/
theorem performSearch_landing_failure_tolerant_witness :
    performSearchWithSession 0 "9.9.9.9" ([] : Store2)
        (.error "landing fetch failed")
        (fun c => if c = "" then .ok 2 else .error "poisoned") =
      ((fun c => if c = "" then (.ok 2 : Except String Nat) else .error "poisoned") "",
       ([] : Store2)) := by
  exact performSearch_landing_failure_tolerant 0 "9.9.9.9" ([] : Store2)
    "landing fetch failed" (fun c => if c = "" then .ok 2 else .error "poisoned") rfl

/-- C7: when the cookie phase supplies a nonempty cookie string, a
failing primary search is followed by a cookie-less retry of the same
search, and a successful retry result is returned as a success. -/
theorem performSearch_cookielessRetry_success {ρ : Type} (now : Int)
    (ip : String) (store : Store2) (landing : Except String (Option String))
    (search : String → Except String ρ) (e : String) (r : ρ)
    (hc : (cookiePhase now ip store landing).1 ≠ "")
    (hp : search (cookiePhase now ip store landing).1 = .error e)
    (hr : search "" = .ok r) :
    (performSearchWithSession now ip store landing search).1 = .ok r := by
  simp [performSearchWithSession, hp, hc, hr]

/-- Witness for performSearch_cookielessRetry_success: a stored fresh
session whose cookie poisons the primary attempt, and a clean
cookie-less retry. -/
theorem performSearch_cookielessRetry_success_witness :
    (performSearchWithSession 0 "a" ([("a", Session2.mk "c=1" 0)] : Store2)
        (.ok none)
        (fun c => if c = "" then (.ok 2 : Except String Nat) else .error "blocked")).1
      = .ok 2 := by
  exact performSearch_cookielessRetry_success 0 "a"
    ([("a", Session2.mk "c=1" 0)] : Store2) (.ok none)
    (fun c => if c = "" then .ok 2 else .error "blocked") "blocked" 2
    (by decide) rfl rfl

/-- C10: when the primary search with a nonempty cookie string fails
and the cookie-less retry also fails, the error returned is the
primary error, not the retry error. -/
theorem performSearch_retryFailure_primary_error {ρ : Type} (now : Int)
    (ip : String) (store : Store2) (landing : Except String (Option String))
    (search : String → Except String ρ) (e e2 : String)
    (hc : (cookiePhase now ip store landing).1 ≠ "")
    (hp : search (cookiePhase now ip store landing).1 = .error e)
    (hr : search "" = .error e2) :
    (performSearchWithSession now ip store landing search).1 = .error e := by
  simp [performSearchWithSession, hp, hc, hr]

/-- Witness for performSearch_retryFailure_primary_error: distinct
primary and retry errors; the primary error is the one returned. -/
theorem performSearch_retryFailure_primary_error_witness :
    (performSearchWithSession 0 "a" ([("a", Session2.mk "c=1" 0)] : Store2)
        (.ok none)
        (fun c => if c = "" then (.error "retry error" : Except String Nat)
          else .error "primary error")).1
      = .error "primary error" := by
  exact performSearch_retryFailure_primary_error 0 "a"
    ([("a", Session2.mk "c=1" 0)] : Store2) (.ok none)
    (fun c => if c = "" then .error "retry error" else .error "primary error")
    "primary error" "retry error" (by decide) rfl rfl
